import Mathlib

/-!
# Visitor counter (`backend/main.go`)

A shallow embedding of the Lambda handler of the visitor counter and of the
library calls it makes.

* A Go `string` is a byte sequence. Texts the program only copies (messages,
  attribute values, header values) are embedded as `String`; the field
  `VisitorCount.ID`, which the JSON encoder inspects, is a `GoString`, which
  also holds the bytes that are not valid UTF-8.
* Go maps are association lists with pairwise distinct keys; the order of the
  list is the order in which a `range` loop visits the entries.
* Go `int` is the 64-bit signed integer of the Lambda platforms; it is embedded
  as `Int`, the range being enforced where the code enforces it (`ParseInt`).
* The pair `(value, error)` returned by a fallible call is an `Except`.
* The DynamoDB client is a state transformer over an arbitrary store state.
-/

namespace CloudResume

/-! ## Data model -/

/-- The union `types.AttributeValue` of the DynamoDB SDK, one constructor per
member type. -/
inductive AttributeValue where
  | B (Value : List Nat)
  | BOOL (Value : Bool)
  | BS (Value : List (List Nat))
  | L (Value : List AttributeValue)
  | M (Value : List (String × AttributeValue))
  | N (Value : String)
  | NS (Value : List String)
  | NULL (Value : Bool)
  | S (Value : String)
  | SS (Value : List String)

/-- The enumeration `types.ReturnValue`. -/
inductive ReturnValue where
  | NONE | ALL_OLD | UPDATED_OLD | ALL_NEW | UPDATED_NEW
  deriving DecidableEq, Repr

/-- The fields of `dynamodb.UpdateItemInput` the handler sets, and the
condition expression it leaves unset. Pointer fields are options. -/
structure UpdateItemInput where
  TableName : Option String
  Key : List (String × AttributeValue)
  UpdateExpression : Option String
  ConditionExpression : Option String
  ExpressionAttributeNames : List (String × String)
  ExpressionAttributeValues : List (String × AttributeValue)
  ReturnValues : ReturnValue

/-- The field of `dynamodb.UpdateItemOutput` the handler reads. A nil map is
`none`. -/
structure UpdateItemOutput where
  Attributes : Option (List (String × AttributeValue))

/-- One step of reading a Go string with `utf8.DecodeRuneInString`: a code
point with a valid encoding, or a single byte that starts none. -/
inductive GoUnit where
  | rune (c : Char)
  | invalid (b : Nat)
  deriving DecidableEq, Repr

/-- A Go `string`, as the sequence of steps in which it is read: every byte
sequence is such a sequence, and the valid UTF-8 strings are the ones without
an invalid byte. -/
abbrev GoString := List GoUnit

/-- The Go string holding the UTF-8 encoding of a text. -/
def GoString.ofString (s : String) : GoString := s.data.map GoUnit.rune

/-- The record type `VisitorCount`. -/
structure VisitorCount where
  ID : GoString
  Count : Int
  deriving DecidableEq, Repr

/-- The parts of `events.APIGatewayProxyRequest` a handler could look at. -/
structure APIGatewayProxyRequest where
  HTTPMethod : String
  Path : String
  Headers : List (String × String)
  Body : String
  deriving DecidableEq, Repr

/-- The struct `events.APIGatewayProxyResponse`. -/
structure APIGatewayProxyResponse where
  StatusCode : Int
  Headers : List (String × String)
  MultiValueHeaders : List (String × List String)
  Body : String
  IsBase64Encoded : Bool
  deriving DecidableEq, Repr

/-- The method `UpdateItem` of the store client: given the context and the
request it changes the store and returns an output or an error message. -/
abbrev Client (κ σ : Type) := κ → UpdateItemInput → σ → Except String UpdateItemOutput × σ

/-! ## Decimal integers (`strconv`) -/

/-- The decimal digit character of `d < 10`. -/
def digitChar (d : Nat) : Char := Char.ofNat (48 + d)

/-- Decimal digits of `n`, most significant first, in front of `acc`. -/
def formatUintAux : Nat → Nat → List Char → List Char
  | 0, _, acc => acc
  | fuel + 1, n, acc =>
    if n < 10 then digitChar n :: acc
    else formatUintAux fuel (n / 10) (digitChar (n % 10) :: acc)

/-- The decimal rendering of a natural number. -/
def formatUint (n : Nat) : List Char := formatUintAux (n + 1) n []

/-- Base-10 `strconv.FormatInt`, as used by `encoding/json` for integers. -/
def formatInt (i : Int) : List Char :=
  if i < 0 then '-' :: formatUint i.natAbs else formatUint i.toNat

/-- The two errors `strconv.ParseInt` reports. -/
inductive NumErr where
  | invalidSyntax | outOfRange
  deriving DecidableEq, Repr

/-- The largest `uint64`. -/
def maxUint64 : Nat := 2 ^ 64 - 1

/-- The loop of `strconv.ParseUint` for base 10 and 64 bits: `n` is the value
read so far. -/
def parseUintLoop : List Char → Nat → Except NumErr Nat
  | [], n => .ok n
  | c :: cs, n =>
    if '0' ≤ c ∧ c ≤ '9' then
      let d := c.toNat - 48
      if n ≥ maxUint64 / 10 + 1 then .error .outOfRange
      else
        let n1 := n * 10 + d
        if n1 > maxUint64 then .error .outOfRange else parseUintLoop cs n1
    else .error .invalidSyntax

/-- Base-10, 64-bit `strconv.ParseUint`. -/
def parseUint (s : List Char) : Except NumErr Nat :=
  if s = [] then .error .invalidSyntax else parseUintLoop s 0

/-- Base-10, 64-bit `strconv.ParseInt`. -/
def parseInt (s : List Char) : Except NumErr Int :=
  if s = [] then .error .invalidSyntax
  else
    let neg := s.head? = some '-'
    let s1 := if s.head? = some '+' ∨ s.head? = some '-' then s.tail else s
    match parseUint s1 with
    | .error e => .error e
    | .ok un =>
      if ¬ neg ∧ un ≥ 2 ^ 63 then .error .outOfRange
      else if neg ∧ un > 2 ^ 63 then .error .outOfRange
      else .ok (if neg then - (un : Int) else (un : Int))

/-! ## Decoding the returned record (`attributevalue.UnmarshalMap`) -/

/-- The fields of `VisitorCount`, in declaration order. -/
inductive Field where
  | ID | Count
  deriving DecidableEq, Repr

/-- The name the `dynamodbav` tag gives a field. -/
def Field.Name : Field → String
  | .ID => "id"
  | .Count => "count"

/-- Lower-case form of an ASCII letter; other characters are unchanged. -/
def asciiLower (c : Char) : Char :=
  if 'A' ≤ c ∧ c ≤ 'Z' then Char.ofNat (c.toNat + 32) else c

/-- The comparison `strings.EqualFold` for a field name: none of the letters of
`id` and `count` has a case variant outside ASCII, so folding is ASCII folding. -/
def equalFold (name k : String) : Bool :=
  name.data.map asciiLower == k.data.map asciiLower

/-- The field lookup of the decoder: an exact match of the tag name first, then
the first field whose name matches under case folding. -/
def FieldByName (k : String) : Option Field :=
  if k = Field.ID.Name then some .ID
  else if k = Field.Count.Name then some .Count
  else if equalFold Field.ID.Name k then some .ID
  else if equalFold Field.Count.Name k then some .Count
  else none

/-- The text of an `UnmarshalTypeError`. -/
def unmarshalTypeError (value goType : String) : String :=
  "unmarshal failed, cannot unmarshal " ++ value ++ " into Go value type " ++ goType

/-- The text of the `strconv.NumError` of `ParseInt`; `quote` is
`strconv.Quote`. -/
def numError (quote : String → String) (num : String) : NumErr → String
  | .invalidSyntax => "strconv.ParseInt: parsing " ++ quote num ++ ": invalid syntax"
  | .outOfRange => "strconv.ParseInt: parsing " ++ quote num ++ ": value out of range"

/-- What `strconv.Quote` returns for a string of printable characters without
a double quote or a backslash: the string between double quotes. It stands for
`strconv.Quote` where a concrete function is needed. -/
def plainQuote (s : String) : String := "\"" ++ s ++ "\""

/-- Decoding an attribute value into the `string` field. -/
def decodeID : AttributeValue → Except String GoString
  | .B _ => .error (unmarshalTypeError "binary" "string")
  | .BOOL _ => .error (unmarshalTypeError "bool" "string")
  | .BS _ => .error (unmarshalTypeError "binary set" "string")
  | .L _ => .error (unmarshalTypeError "list" "string")
  | .M _ => .error (unmarshalTypeError "map" "string")
  | .N n => .ok (GoString.ofString n)
  | .NS _ => .error (unmarshalTypeError "number set" "string")
  | .NULL _ => .ok []
  | .S s => .ok (GoString.ofString s)
  | .SS _ => .error (unmarshalTypeError "string set" "string")

/-- Decoding an attribute value into the `int` field. -/
def decodeCount (quote : String → String) : AttributeValue → Except String Int
  | .B _ => .error (unmarshalTypeError "binary" "int")
  | .BOOL _ => .error (unmarshalTypeError "bool" "int")
  | .BS _ => .error (unmarshalTypeError "binary set" "int")
  | .L _ => .error (unmarshalTypeError "list" "int")
  | .M _ => .error (unmarshalTypeError "map" "int")
  | .N n =>
    match parseInt n.data with
    | .error e => .error (numError quote n e)
    | .ok i => .ok i
  | .NS _ => .error (unmarshalTypeError "number set" "int")
  | .NULL _ => .ok 0
  | .S _ => .error (unmarshalTypeError "string" "int")
  | .SS _ => .error (unmarshalTypeError "string set" "int")

/-- The struct case of the decoder's `decodeMap`: every entry of the map whose
key names a field is decoded into that field, other entries are skipped, and
the first error ends the loop. -/
def decodeMap (quote : String → String) :
    List (String × AttributeValue) → VisitorCount → Except String VisitorCount
  | [], v => .ok v
  | (k, av) :: rest, v =>
    match FieldByName k with
    | some .ID =>
      match decodeID av with
      | .error e => .error e
      | .ok s => decodeMap quote rest { v with ID := s }
    | some .Count =>
      match decodeCount quote av with
      | .error e => .error e
      | .ok i => decodeMap quote rest { v with Count := i }
    | none => decodeMap quote rest v

/-- The call `attributevalue.UnmarshalMap(m, &visitorCount)` on a zero-valued
`visitorCount`; a nil map has no entries. -/
def UnmarshalMap (quote : String → String) (m : Option (List (String × AttributeValue))) :
    Except String VisitorCount :=
  decodeMap quote (m.getD []) { ID := [], Count := 0 }

/-! ## JSON encoding (`encoding/json`) -/

/-- Lower-case hexadecimal digit of `n < 16`. -/
def hexDigit (n : Nat) : Char :=
  if n < 10 then Char.ofNat (48 + n) else Char.ofNat (87 + n)

/-- The ASCII characters the encoder copies unchanged (`htmlSafeSet`). -/
def htmlSafe (c : Char) : Bool :=
  decide (32 ≤ c.toNat) && c != '"' && c != '&' && c != '<' && c != '>' && c != '\\'

/-- What the string encoder writes for one character. -/
def escapeChar (c : Char) : List Char :=
  if c.toNat < 128 then
    if htmlSafe c then [c]
    else if c = '\\' ∨ c = '"' then ['\\', c]
    else if c = '\x08' then ['\\', 'b']
    else if c = '\x0c' then ['\\', 'f']
    else if c = '\n' then ['\\', 'n']
    else if c = '\r' then ['\\', 'r']
    else if c = '\t' then ['\\', 't']
    else ['\\', 'u', '0', '0', hexDigit (c.toNat / 16), hexDigit (c.toNat % 16)]
  else if c.toNat = 0x2028 ∨ c.toNat = 0x2029 then
    ['\\', 'u', '2', '0', '2', hexDigit (c.toNat % 16)]
  else [c]

/-- What the string encoder writes for one step of a Go string: a byte that is
not valid UTF-8 is written as the escape of U+FFFD. -/
def escapeUnit : GoUnit → List Char
  | .rune c => escapeChar c
  | .invalid _ => ['\\', 'u', 'f', 'f', 'f', 'd']

/-- The JSON string literal the encoder writes for a text. -/
def encodeString (s : String) : List Char :=
  '"' :: (s.data.flatMap escapeChar ++ ['"'])

/-- The JSON string literal the encoder writes for a Go string. -/
def encodeGoString (s : GoString) : List Char :=
  '"' :: (s.flatMap escapeUnit ++ ['"'])

/-- The members of an object, comma separated. -/
def encodeMembers : List (String × Int) → List Char
  | [] => []
  | [(k, v)] => encodeString k ++ ':' :: formatInt v
  | (k, v) :: rest => encodeString k ++ ':' :: formatInt v ++ ',' :: encodeMembers rest

/-- The call `json.Marshal` on a `map[string]int`: the entries are written in
increasing key order. -/
def marshalMap (m : List (String × Int)) : String :=
  ⟨'{' :: (encodeMembers (m.insertionSort (fun a b => a.1 ≤ b.1)) ++ ['}'])⟩

/-- The call `json.Marshal` on a `VisitorCount`: the fields in declaration
order under their `json` tag names. -/
def marshalVisitorCount (vc : VisitorCount) : String :=
  ⟨'{' :: (encodeString "id" ++ ':' :: encodeGoString vc.ID ++ ',' ::
    encodeString "count" ++ ':' :: formatInt vc.Count ++ ['}'])⟩

/-! ## JSON documents (RFC 8259) -/

/-- A JSON value. A number keeps its sign, the value of its integer part, the
digits of its fraction and the text of its exponent as written. -/
inductive JsonValue where
  | null
  | bool (b : Bool)
  | num (neg : Bool) (n : Nat) (frac exp : List Char)
  | str (s : String)
  | arr (vs : List JsonValue)
  | obj (ms : List (String × JsonValue))

/-- The JSON number that is the integer `i`. -/
def JsonValue.int (i : Int) : JsonValue := .num (decide (i < 0)) i.natAbs [] []

/-- Removes leading JSON whitespace. -/
def skipWs : List Char → List Char
  | [] => []
  | c :: cs => if c = ' ' ∨ c = '\t' ∨ c = '\n' ∨ c = '\r' then skipWs cs else c :: cs

/-- Value of a hexadecimal digit. -/
def hexVal (c : Char) : Option Nat :=
  if '0' ≤ c ∧ c ≤ '9' then some (c.toNat - 48)
  else if 'a' ≤ c ∧ c ≤ 'f' then some (c.toNat - 87)
  else if 'A' ≤ c ∧ c ≤ 'F' then some (c.toNat - 55)
  else none

/-- Value of four hexadecimal digits. -/
def hex4 (a b c d : Char) : Option Nat :=
  match hexVal a, hexVal b, hexVal c, hexVal d with
  | some x, some y, some z, some w => some (((x * 16 + y) * 16 + z) * 16 + w)
  | _, _, _, _ => none

/-- Puts a character in front of a parsed string. -/
def consChar (c : Char) : Option (List Char × List Char) → Option (List Char × List Char)
  | none => none
  | some (s, rest) => some (c :: s, rest)

/-- Puts U+FFFD in front of a parsed string when an escaped high surrogate is
still waiting for its partner. -/
def flushPending (pend : Option Nat) (r : Option (List Char × List Char)) :
    Option (List Char × List Char) :=
  match pend with
  | none => r
  | some _ => consChar (Char.ofNat 0xFFFD) r

/-- Reads a string after its opening quote: the characters it denotes and the
input after its closing quote. `pend` is an escaped UTF-16 high surrogate read
just before; an escaped surrogate without its partner denotes U+FFFD. -/
def parseStrFrom : Option Nat → List Char → Option (List Char × List Char)
  | _, [] => none
  | pend, c :: cs =>
    if c = '"' then flushPending pend (some ([], cs))
    else if c = '\\' then
      match cs with
      | [] => none
      | e :: cs1 =>
        if e = '"' ∨ e = '\\' ∨ e = '/' then
          flushPending pend (consChar e (parseStrFrom none cs1))
        else if e = 'b' then flushPending pend (consChar '\x08' (parseStrFrom none cs1))
        else if e = 'f' then flushPending pend (consChar '\x0c' (parseStrFrom none cs1))
        else if e = 'n' then flushPending pend (consChar '\n' (parseStrFrom none cs1))
        else if e = 'r' then flushPending pend (consChar '\r' (parseStrFrom none cs1))
        else if e = 't' then flushPending pend (consChar '\t' (parseStrFrom none cs1))
        else if e = 'u' then
          match cs1 with
          | h1 :: h2 :: h3 :: h4 :: cs2 =>
            match hex4 h1 h2 h3 h4 with
            | none => none
            | some v =>
              if 0xDC00 ≤ v ∧ v < 0xE000 then
                match pend with
                | some hi =>
                  consChar (Char.ofNat (0x10000 + (hi - 0xD800) * 0x400 + (v - 0xDC00)))
                    (parseStrFrom none cs2)
                | none => consChar (Char.ofNat 0xFFFD) (parseStrFrom none cs2)
              else if 0xD800 ≤ v ∧ v < 0xDC00 then
                flushPending pend (parseStrFrom (some v) cs2)
              else flushPending pend (consChar (Char.ofNat v) (parseStrFrom none cs2))
          | _ => none
        else none
    else if c.toNat < 32 then none
    else flushPending pend (consChar c (parseStrFrom none cs))

/-- Reads a string after its opening quote. -/
def parseStr (cs : List Char) : Option (List Char × List Char) := parseStrFrom none cs

/-- Whether a character is a decimal digit. -/
def isDigit (c : Char) : Bool := decide ('0' ≤ c ∧ c ≤ '9')

/-- Splits off the longest prefix of decimal digits. -/
def takeDigits : List Char → List Char × List Char
  | [] => ([], [])
  | c :: cs =>
    if isDigit c then ((takeDigits cs).1.cons c, (takeDigits cs).2) else ([], c :: cs)

/-- The number a list of decimal digits denotes. -/
def digitsValue (ds : List Char) : Nat :=
  ds.foldl (fun n c => n * 10 + (c.toNat - 48)) 0

/-- Reads the optional fraction of a number: its digits and the rest. -/
def parseFrac : List Char → Option (List Char × List Char)
  | [] => some ([], [])
  | c :: cs =>
    if c = '.' then
      if (takeDigits cs).1 = [] then none else some (takeDigits cs)
    else some ([], c :: cs)

/-- Reads the optional exponent of a number: its text and the rest. -/
def parseExp : List Char → Option (List Char × List Char)
  | [] => some ([], [])
  | c :: cs =>
    if c = 'e' ∨ c = 'E' then
      match cs with
      | [] => none
      | g :: cs1 =>
        if g = '+' ∨ g = '-' then
          if (takeDigits cs1).1 = [] then none
          else some (g :: (takeDigits cs1).1, (takeDigits cs1).2)
        else if (takeDigits cs).1 = [] then none else some (takeDigits cs)
    else some ([], c :: cs)

/-- Reads an unsigned number: integer part, fraction, exponent and the rest. -/
def parseUnsigned : List Char → Option ((Nat × List Char × List Char) × List Char)
  | [] => none
  | c :: cs =>
    if isDigit c then
      let ip := if c = '0' then ([c], cs) else takeDigits (c :: cs)
      match parseFrac ip.2 with
      | none => none
      | some (fr, r1) =>
        match parseExp r1 with
        | none => none
        | some (ex, r2) => some ((digitsValue ip.1, fr, ex), r2)
    else none

/-- Reads a number. -/
def parseNumber : List Char → Option (JsonValue × List Char)
  | [] => none
  | c :: cs =>
    if c = '-' then
      match parseUnsigned cs with
      | none => none
      | some ((n, fr, ex), r) => some (.num true n fr ex, r)
    else
      match parseUnsigned (c :: cs) with
      | none => none
      | some ((n, fr, ex), r) => some (.num false n fr ex, r)

/-- Removes the given literal from the front of the input. -/
def expect : List Char → List Char → Option (List Char)
  | [], cs => some cs
  | _ :: _, [] => none
  | l :: ls, c :: cs => if l = c then expect ls cs else none

mutual
/-- Reads a JSON value at the front of the input (no leading whitespace); the
first argument bounds the number of nested calls. -/
def parseValue : Nat → List Char → Option (JsonValue × List Char)
  | 0, _ => none
  | _ + 1, [] => none
  | fuel + 1, c :: cs =>
    if c = '{' then
      match skipWs cs with
      | [] => none
      | d :: ds =>
        if d = '}' then some (.obj [], ds)
        else
          match parseMembers fuel (d :: ds) with
          | none => none
          | some (ms, r) => some (.obj ms, r)
    else if c = '[' then
      match skipWs cs with
      | [] => none
      | d :: ds =>
        if d = ']' then some (.arr [], ds)
        else
          match parseElements fuel (d :: ds) with
          | none => none
          | some (vs, r) => some (.arr vs, r)
    else if c = '"' then
      match parseStr cs with
      | none => none
      | some (s, r) => some (.str ⟨s⟩, r)
    else if c = 't' then (expect "rue".data cs).map (fun r => (.bool true, r))
    else if c = 'f' then (expect "alse".data cs).map (fun r => (.bool false, r))
    else if c = 'n' then (expect "ull".data cs).map (fun r => (.null, r))
    else parseNumber (c :: cs)
/-- Reads the members of an object up to and including its closing brace. -/
def parseMembers : Nat → List Char → Option (List (String × JsonValue) × List Char)
  | 0, _ => none
  | _ + 1, [] => none
  | fuel + 1, c :: cs =>
    if c = '"' then
      match parseStr cs with
      | none => none
      | some (k, r) =>
        match skipWs r with
        | [] => none
        | d :: ds =>
          if d = ':' then
            match parseValue fuel (skipWs ds) with
            | none => none
            | some (v, r1) =>
              match skipWs r1 with
              | [] => none
              | e :: es =>
                if e = '}' then some ([(⟨k⟩, v)], es)
                else if e = ',' then
                  match parseMembers fuel (skipWs es) with
                  | none => none
                  | some (ms, r2) => some ((⟨k⟩, v) :: ms, r2)
                else none
          else none
    else none
/-- Reads the elements of an array up to and including its closing bracket. -/
def parseElements : Nat → List Char → Option (List JsonValue × List Char)
  | 0, _ => none
  | fuel + 1, cs =>
    match parseValue fuel cs with
    | none => none
    | some (v, r1) =>
      match skipWs r1 with
      | [] => none
      | e :: es =>
        if e = ']' then some ([v], es)
        else if e = ',' then
          match parseElements fuel (skipWs es) with
          | none => none
          | some (vs, r2) => some (v :: vs, r2)
        else none
end

/-- Parses a whole JSON text: `none` when the text is not valid JSON. -/
def parseJSON (s : String) : Option JsonValue :=
  match parseValue (s.data.length + 1) (skipWs s.data) with
  | none => none
  | some (v, r) => if skipWs r = [] then some v else none

/-- Storing the members of a JSON object into a `VisitorCount`, as
`json.Unmarshal` does: a member whose key names a field (exactly, or up to
case) is stored into it, `null` and unknown members are skipped, a later member
overrides an earlier one, and a value of the wrong kind is an error. -/
def storeMembers : List (String × JsonValue) → VisitorCount → Except String VisitorCount
  | [], v => .ok v
  | (k, j) :: rest, v =>
    match FieldByName k, j with
    | none, _ => storeMembers rest v
    | some _, .null => storeMembers rest v
    | some .ID, .str s => storeMembers rest { v with ID := GoString.ofString s }
    | some .Count, .num neg n [] [] =>
      let i : Int := if neg then -(n : Int) else (n : Int)
      if -(2 : Int) ^ 63 ≤ i ∧ i < (2 : Int) ^ 63 then storeMembers rest { v with Count := i }
      else .error "json: cannot unmarshal number into Go struct field VisitorCount.count of type int"
    | some .ID, _ =>
      .error "json: cannot unmarshal value into Go struct field VisitorCount.id of type string"
    | some .Count, _ =>
      .error "json: cannot unmarshal value into Go struct field VisitorCount.count of type int"

/-- The call `json.Unmarshal(data, &vc)` on a zero-valued `vc`. -/
def unmarshalVisitorCount (data : String) : Except String VisitorCount :=
  match parseJSON data with
  | none => .error "invalid JSON"
  | some (.obj ms) => storeMembers ms { ID := [], Count := 0 }
  | some .null => .ok { ID := [], Count := 0 }
  | some _ => .error "json: cannot unmarshal value into Go value of type main.VisitorCount"

/-! ## Initialisation and the handler -/

/-- The package-level variables. -/
structure Globals (ρ : Type) where
  dynamoClient : ρ
  tableName : String

/-- The function `init`: `env` is the process environment, `loadDefaultConfig`
the outcome of loading the SDK configuration and `newFromConfig` the client
constructor. A panic is an error. -/
def init {γ ρ : Type} (env : String → Option String) (loadDefaultConfig : Except String γ)
    (newFromConfig : γ → ρ) : Except String (Globals ρ) :=
  let tableName := (env "TABLE_NAME").getD ""
  let tableName := if tableName = "" then "VisitorCount" else tableName
  match loadDefaultConfig with
  | .error err => .error ("unable to load SDK config: " ++ err)
  | .ok cfg => .ok { dynamoClient := newFromConfig cfg, tableName := tableName }

/-- The request the handler builds. -/
def updateInput (tableName : String) : UpdateItemInput :=
  { TableName := some tableName
    Key := [("id", .S "visitor-count")]
    UpdateExpression := some "ADD #count :inc"
    ConditionExpression := none
    ExpressionAttributeNames := [("#count", "count")]
    ExpressionAttributeValues := [(":inc", .N "1")]
    ReturnValues := .ALL_NEW }

/-- The function `handler`. The package variables `tableName` and
`dynamoClient` and the library decoder `attributevalue.UnmarshalMap` (modelled
by `UnmarshalMap`) are arguments. The store state is threaded through the call
of the client; the second component of the result is the returned `error`. -/
def handler {κ σ : Type}
    (unmarshalMap : Option (List (String × AttributeValue)) → Except String VisitorCount)
    (tableName : String) (dynamoClient : Client κ σ) (ctx : κ)
    (_request : APIGatewayProxyRequest) (s : σ) :
    (APIGatewayProxyResponse × Option String) × σ :=
  match dynamoClient ctx (updateInput tableName) s with
  | (.error err, s1) =>
    (({ StatusCode := 500
        Headers := [("Access-Control-Allow-Origin", "*"),
                    ("Access-Control-Allow-Methods", "POST, OPTIONS"),
                    ("Access-Control-Allow-Headers", "Content-Type")]
        MultiValueHeaders := []
        Body := "\x7b\"error\": \"Failed to update count: " ++ err ++ "\"\x7d"
        IsBase64Encoded := false }, none), s1)
  | (.ok result, s1) =>
    match unmarshalMap result.Attributes with
    | .error err =>
      (({ StatusCode := 500
          Headers := [("Access-Control-Allow-Origin", "*"),
                      ("Access-Control-Allow-Methods", "POST, OPTIONS"),
                      ("Access-Control-Allow-Headers", "Content-Type")]
          MultiValueHeaders := []
          Body := "\x7b\"error\": \"Failed to parse count: " ++ err ++ "\"\x7d"
          IsBase64Encoded := false }, none), s1)
    | .ok visitorCount =>
      let responseBody := marshalMap [("count", visitorCount.Count)]
      (({ StatusCode := 200
          Headers := [("Access-Control-Allow-Origin", "*"),
                      ("Access-Control-Allow-Methods", "POST, OPTIONS"),
                      ("Access-Control-Allow-Headers", "Content-Type"),
                      ("Content-Type", "application/json")]
          MultiValueHeaders := []
          Body := responseBody
          IsBase64Encoded := false }, none), s1)

/-! ## The store collaborator and the gateway -/

/-- A client that answers every call with the same outcome and keeps the list
of the requests it received. -/
def recordingClient {κ : Type} (outcome : Except String UpdateItemOutput) :
    Client κ (List UpdateItemInput) :=
  fun _ input log => (outcome, log ++ [input])

/-- The state of a store holding the counter record: its count, or `none`
while the record does not exist. -/
abbrev Store := Option Int

/-- A store whose `UpdateItem` is an atomic add: for a request that adds the
number bound to `:inc` to the attribute `count` of the record with key
`visitor-count`, the stored count (0 for an absent record) is replaced by the
sum in one step, and the new record is returned when all new attributes are
asked for. Any other request is rejected and changes nothing. -/
def atomicAddStore {κ : Type} : Client κ Store :=
  fun _ input s =>
    match input.Key, input.ExpressionAttributeValues.lookup ":inc" with
    | [(kn, .S kv)], some (.N d) =>
      if kn = "id" ∧ kv = "visitor-count" ∧ input.UpdateExpression = some "ADD #count :inc" ∧
          input.ConditionExpression = none ∧
          input.ExpressionAttributeNames.lookup "#count" = some "count" then
        match parseInt d.data with
        | .error _ => (.error "ValidationException", s)
        | .ok inc =>
          let n := s.getD 0 + inc
          (.ok { Attributes :=
                  if input.ReturnValues = .ALL_NEW then
                    some [("id", .S kv), ("count", .N ⟨formatInt n⟩)]
                  else none }, some n)
      else (.error "ValidationException", s)
    | _, _ => (.error "ValidationException", s)

/-- The gateway delivering requests one after the other: the list is the order
in which the invocations reach the store. -/
def invokeAll {κ σ : Type}
    (unmarshalMap : Option (List (String × AttributeValue)) → Except String VisitorCount)
    (tableName : String) (dynamoClient : Client κ σ) (ctx : κ) :
    List APIGatewayProxyRequest → σ → List (APIGatewayProxyResponse × Option String) × σ
  | [], s => ([], s)
  | r :: rs, s =>
    let out := handler unmarshalMap tableName dynamoClient ctx r s
    let rest := invokeAll unmarshalMap tableName dynamoClient ctx rs out.2
    (out.1 :: rest.1, rest.2)

/-- The three CORS headers. -/
def corsHeaders : List (String × String) :=
  [("Access-Control-Allow-Origin", "*"),
   ("Access-Control-Allow-Methods", "POST, OPTIONS"),
   ("Access-Control-Allow-Headers", "Content-Type")]

/-- The response of a successful invocation reporting the count `v`. -/
def countResponse (v : Int) : APIGatewayProxyResponse :=
  { StatusCode := 200
    Headers := corsHeaders ++ [("Content-Type", "application/json")]
    MultiValueHeaders := []
    Body := ⟨"\x7b\"count\":".data ++ formatInt v ++ "\x7d".data⟩
    IsBase64Encoded := false }

/-- The response of a failed invocation with the given body. -/
def errorResponse (body : String) : APIGatewayProxyResponse :=
  { StatusCode := 500
    Headers := corsHeaders
    MultiValueHeaders := []
    Body := body
    IsBase64Encoded := false }

/-- The record the atomic-add store returns for the count `n`. -/
def counterRecord (n : Int) : List (String × AttributeValue) :=
  [("id", .S "visitor-count"), ("count", .N ⟨formatInt n⟩)]

/-- The response of the handler when the store returns the record with the
count `n`. -/
def counterReport (quote : String → String) (n : Int) : APIGatewayProxyResponse :=
  match UnmarshalMap quote (some (counterRecord n)) with
  | .error err => errorResponse ("\x7b\"error\": \"Failed to parse count: " ++ err ++ "\"\x7d")
  | .ok visitorCount => countResponse visitorCount.Count

/-- The character read back from the text the encoder writes for one step of a
Go string. -/
def unitChar : GoUnit → Char
  | .rune c => c
  | .invalid _ => Char.ofNat 0xFFFD

/-- The Go string read back from the JSON text written for a Go string: every
byte that is not valid UTF-8 has become U+FFFD. -/
def readBack (s : GoString) : GoString := s.map (fun u => GoUnit.rune (unitChar u))

/-! ## Theorems -/

/-! ### Decimal rendering and parsing -/

theorem digitChar_toNat (d : Nat) (h : d < 10) : (digitChar d).toNat = 48 + d := by
  interval_cases d <;> rfl

theorem digitChar_range (d : Nat) (h : d < 10) : '0' ≤ digitChar d ∧ digitChar d ≤ '9' := by
  interval_cases d <;> decide

theorem isDigit_digitChar (d : Nat) (h : d < 10) : isDigit (digitChar d) = true := by
  interval_cases d <;> rfl

theorem formatUintAux_eq (n : Nat) :
    ∀ fuel acc, n < fuel → formatUintAux fuel n acc = formatUint n ++ acc := by
  induction n using Nat.strong_induction_on with
  | _ n ih =>
    intro fuel acc hf
    cases fuel with
    | zero => omega
    | succ fuel =>
      by_cases h : n < 10
      · simp [formatUintAux, formatUint, h]
      · have h1 : n / 10 < n := by omega
        have h2 : n / 10 < fuel := by omega
        simp only [formatUintAux, formatUint, h, if_false]
        rw [ih (n / 10) h1 fuel _ h2, ih (n / 10) h1 n _ h1]
        simp

theorem formatUint_eq (n : Nat) :
    formatUint n =
      if n < 10 then [digitChar n] else formatUint (n / 10) ++ [digitChar (n % 10)] := by
  by_cases h : n < 10
  · simp [formatUint, formatUintAux, h]
  · have h1 : n / 10 < n := by omega
    simp only [h, if_false]
    conv_lhs => unfold formatUint
    simp only [formatUintAux, h, if_false]
    rw [formatUintAux_eq (n / 10) n _ h1]

theorem formatUint_cons (n : Nat) :
    ∃ c cs, formatUint n = c :: cs ∧ isDigit c = true ∧ (c = '0' → n = 0 ∧ cs = []) := by
  induction n using Nat.strong_induction_on with
  | _ n ih =>
    rw [formatUint_eq]
    by_cases h : n < 10
    · refine ⟨digitChar n, [], by simp [h], isDigit_digitChar n h, ?_⟩
      intro h0
      have := digitChar_toNat n h
      rw [h0] at this
      have h48 : ('0' : Char).toNat = 48 := rfl
      exact ⟨by omega, rfl⟩
    · obtain ⟨c, cs, hc, hd, hz⟩ := ih (n / 10) (by omega)
      refine ⟨c, cs ++ [digitChar (n % 10)], by simp [h, hc], hd, ?_⟩
      intro h0
      have := (hz h0).1
      omega

theorem formatUint_digits (n : Nat) : ∀ c ∈ formatUint n, isDigit c = true := by
  induction n using Nat.strong_induction_on with
  | _ n ih =>
    rw [formatUint_eq]
    by_cases h : n < 10
    · simp only [h, if_true, List.mem_singleton]
      intro c hc
      subst hc
      exact isDigit_digitChar n h
    · simp only [h, if_false, List.mem_append, List.mem_singleton]
      intro c hc
      rcases hc with hc | hc
      · exact ih (n / 10) (by omega) c hc
      · subst hc
        exact isDigit_digitChar _ (by omega)

theorem parseUintLoop_append (a b : List Char) :
    ∀ n, parseUintLoop (a ++ b) n =
      match parseUintLoop a n with
      | .ok v => parseUintLoop b v
      | .error e => .error e := by
  induction a with
  | nil => intro n; rfl
  | cons c cs ih =>
    intro n
    simp only [List.cons_append, parseUintLoop]
    split_ifs <;> first | rfl | exact ih _

theorem parseUintLoop_digit (d m : Nat) (hd : d < 10) (hm : m * 10 + d ≤ maxUint64) :
    parseUintLoop [digitChar d] m = .ok (m * 10 + d) := by
  have hr := digitChar_range d hd
  have ht := digitChar_toNat d hd
  have hmax : maxUint64 = 18446744073709551615 := by decide
  rw [hmax] at hm
  simp only [parseUintLoop, hr, and_self, if_true, ht, hmax]
  have h1 : ¬ (m ≥ 18446744073709551615 / 10 + 1) := by omega
  have h2 : ¬ (m * 10 + (48 + d - 48) > 18446744073709551615) := by omega
  simp only [h1, h2, if_false]
  congr 1
  omega

theorem parseUintLoop_formatUint (n : Nat) (h : n ≤ maxUint64) :
    parseUintLoop (formatUint n) 0 = .ok n := by
  induction n using Nat.strong_induction_on with
  | _ n ih =>
    rw [formatUint_eq]
    by_cases h10 : n < 10
    · simp only [h10, if_true]
      have := parseUintLoop_digit n 0 h10 (by omega)
      simpa using this
    · simp only [h10, if_false]
      rw [parseUintLoop_append, ih (n / 10) (by omega) (by omega)]
      simp only []
      rw [parseUintLoop_digit (n % 10) (n / 10) (by omega) (by omega)]
      congr 1
      omega

theorem parseUint_formatUint (n : Nat) (h : n ≤ maxUint64) :
    parseUint (formatUint n) = .ok n := by
  obtain ⟨c, cs, hc, -, -⟩ := formatUint_cons n
  unfold parseUint
  rw [if_neg (by rw [hc]; exact List.cons_ne_nil _ _)]
  exact parseUintLoop_formatUint n h

/-- Parsing the decimal rendering of a 64-bit integer gives the integer back. -/
theorem parseInt_formatInt (i : Int) (hlo : -(2 : Int) ^ 63 ≤ i) (hhi : i < (2 : Int) ^ 63) :
    parseInt (formatInt i) = .ok i := by
  have hmax : maxUint64 = 18446744073709551615 := by decide
  have hp : (2 : Nat) ^ 63 = 9223372036854775808 := by norm_num
  by_cases hneg : i < 0
  · have hu := parseUint_formatUint i.natAbs (by rw [hmax]; omega)
    simp only [formatInt, hneg, if_true, parseInt]
    simp only [hu, List.head?_cons, List.tail_cons, true_or, or_true, if_true, not_true,
      false_and, true_and, if_false]
    rw [if_neg (List.cons_ne_nil _ _), if_neg (by rw [hp]; omega)]
    congr 1
    omega
  · obtain ⟨c, cs, hc, hd, -⟩ := formatUint_cons i.toNat
    have hu := parseUint_formatUint i.toNat (by rw [hmax]; omega)
    have hplus : c ≠ '+' := by intro h; rw [h] at hd; exact absurd hd (by decide)
    have hminus : c ≠ '-' := by intro h; rw [h] at hd; exact absurd hd (by decide)
    simp only [formatInt, hneg, if_false, parseInt]
    rw [hc] at hu ⊢
    have e1 : (some c = some '+') = False := by simp [hplus]
    have e2 : (some c = some '-') = False := by simp [hminus]
    simp only [List.head?_cons, e1, e2, or_self, if_false, hu, reduceCtorEq, not_false_eq_true,
      true_and, false_and]
    rw [if_neg (by rw [hp]; omega)]
    congr 1
    omega

theorem parseUintLoop_digit_sound (d m v : Nat) (hd : d < 10)
    (h : parseUintLoop [digitChar d] m = .ok v) : v = m * 10 + d := by
  have ht := digitChar_toNat d hd
  simp only [parseUintLoop, ht] at h
  split_ifs at h
  simp only [Except.ok.injEq] at h
  omega

theorem parseUintLoop_formatUint_sound (n : Nat) :
    ∀ v, parseUintLoop (formatUint n) 0 = .ok v → v = n := by
  induction n using Nat.strong_induction_on with
  | _ n ih =>
    intro v h
    rw [formatUint_eq] at h
    by_cases h10 : n < 10
    · simp only [h10, if_true] at h
      have := parseUintLoop_digit_sound n 0 v h10 h
      omega
    · simp only [h10, if_false] at h
      rw [parseUintLoop_append] at h
      cases hq : parseUintLoop (formatUint (n / 10)) 0 with
      | error e => rw [hq] at h; exact absurd h (by simp)
      | ok w =>
        rw [hq] at h
        have hw := ih (n / 10) (by omega) w hq
        have := parseUintLoop_digit_sound (n % 10) w v (by omega) h
        omega

/-- When the decimal rendering of an integer parses, it parses to that integer. -/
theorem parseInt_formatInt_sound (i v : Int) (h : parseInt (formatInt i) = .ok v) : v = i := by
  by_cases hneg : i < 0
  · simp only [formatInt, hneg, if_true, parseInt, List.head?_cons, List.tail_cons, true_or,
      or_true, if_true] at h
    rw [if_neg (List.cons_ne_nil _ _)] at h
    unfold parseUint at h
    split_ifs at h with h0
    cases hq : parseUintLoop (formatUint i.natAbs) 0 with
    | error e => rw [hq] at h; exact absurd h (by simp)
    | ok w =>
      rw [hq] at h
      have hw := parseUintLoop_formatUint_sound _ w hq
      simp only [] at h
      split_ifs at h
      simp only [Except.ok.injEq] at h
      omega
  · obtain ⟨c, cs, hc, hd, -⟩ := formatUint_cons i.toNat
    have hplus : c ≠ '+' := by intro h; rw [h] at hd; exact absurd hd (by decide)
    have hminus : c ≠ '-' := by intro h; rw [h] at hd; exact absurd hd (by decide)
    have e1 : (some c = some '+') = False := by simp [hplus]
    have e2 : (some c = some '-') = False := by simp [hminus]
    simp only [formatInt, hneg, if_false, parseInt] at h
    rw [if_neg (by rw [hc]; exact List.cons_ne_nil _ _)] at h
    have hh : (formatUint i.toNat).head? = some c := by rw [hc]; rfl
    simp only [hh, e1, e2, or_self, if_false] at h
    unfold parseUint at h
    rw [if_neg (by rw [hc]; exact List.cons_ne_nil _ _)] at h
    cases hq : parseUintLoop (formatUint i.toNat) 0 with
    | error e => rw [hq] at h; exact absurd h (by simp)
    | ok w =>
      rw [hq] at h
      have hw := parseUintLoop_formatUint_sound _ w hq
      simp only [] at h
      split_ifs at h
      simp only [Except.ok.injEq] at h
      omega

/-- Closed form of the handler: the client is called once with the fixed
request, and the response is determined by its outcome. -/
theorem handler_eq {κ σ : Type}
    (unmarshalMap : Option (List (String × AttributeValue)) → Except String VisitorCount)
    (tableName : String) (client : Client κ σ) (ctx : κ) (request : APIGatewayProxyRequest)
    (s : σ) :
    handler unmarshalMap tableName client ctx request s =
      ((match (client ctx (updateInput tableName) s).1 with
        | .error err =>
          errorResponse ("\x7b\"error\": \"Failed to update count: " ++ err ++ "\"\x7d")
        | .ok result =>
          match unmarshalMap result.Attributes with
          | .error err =>
            errorResponse ("\x7b\"error\": \"Failed to parse count: " ++ err ++ "\"\x7d")
          | .ok visitorCount => countResponse visitorCount.Count, none),
       (client ctx (updateInput tableName) s).2) := by
  unfold handler
  rcases h : client ctx (updateInput tableName) s with ⟨r, s1⟩
  cases r with
  | error err => rfl
  | ok result =>
    simp only []
    cases hd : unmarshalMap result.Attributes with
    | error err => rfl
    | ok vc =>
      simp only [countResponse, marshalMap, List.insertionSort, List.orderedInsert,
        encodeMembers, encodeString, corsHeaders]
      rfl

/-- C2: when the store call fails with message `M`, the handler returns status
500, the body `{"error": "Failed to update count: M"}` and exactly the three
CORS headers, with a nil error; the decoder is not consulted, the response being
the same whatever decoder the handler is given. -/
theorem handler_store_failure {κ σ : Type}
    (unmarshalMap : Option (List (String × AttributeValue)) → Except String VisitorCount)
    (tableName : String) (client : Client κ σ) (ctx : κ) (request : APIGatewayProxyRequest)
    (s s1 : σ) (M : String)
    (hstore : client ctx (updateInput tableName) s = (.error M, s1)) :
    (handler unmarshalMap tableName client ctx request s).1 =
      ({ StatusCode := 500
         Headers := [("Access-Control-Allow-Origin", "*"),
                     ("Access-Control-Allow-Methods", "POST, OPTIONS"),
                     ("Access-Control-Allow-Headers", "Content-Type")]
         MultiValueHeaders := []
         Body := "\x7b\"error\": \"Failed to update count: " ++ M ++ "\"\x7d"
         IsBase64Encoded := false }, none) ∧
    (handler unmarshalMap tableName client ctx request s).1.1.Headers.lookup "Content-Type"
      = none ∧
    ∀ other : Option (List (String × AttributeValue)) → Except String VisitorCount,
      handler other tableName client ctx request s =
        handler unmarshalMap tableName client ctx request s := by
  refine ⟨?_, ?_, ?_⟩
  · rw [handler_eq, hstore]; rfl
  · rw [handler_eq, hstore]; rfl
  · intro other
    rw [handler_eq, handler_eq, hstore]

/-- C2, at a store that always fails with the message `timeout`. -/
theorem handler_store_failure_witness :
    (handler (UnmarshalMap plainQuote) "VisitorCount"
        (fun (_ : Unit) _ (s : Unit) => (Except.error "timeout", s)) ()
        { HTTPMethod := "POST", Path := "/", Headers := [], Body := "" } ()).1 =
      ({ StatusCode := 500
         Headers := [("Access-Control-Allow-Origin", "*"),
                     ("Access-Control-Allow-Methods", "POST, OPTIONS"),
                     ("Access-Control-Allow-Headers", "Content-Type")]
         MultiValueHeaders := []
         Body := "\x7b\"error\": \"Failed to update count: " ++ "timeout" ++ "\"\x7d"
         IsBase64Encoded := false }, none) :=
  (handler_store_failure (UnmarshalMap plainQuote) "VisitorCount"
    (fun (_ : Unit) _ (s : Unit) => (Except.error "timeout", s)) ()
    { HTTPMethod := "POST", Path := "/", Headers := [], Body := "" } () () "timeout" rfl).1

/-- C4: whatever the request and whatever the outcome of the store call and of
the decoding, the response carries the three CORS headers with their fixed
values. -/
theorem handler_cors_headers {κ σ : Type}
    (unmarshalMap : Option (List (String × AttributeValue)) → Except String VisitorCount)
    (tableName : String) (client : Client κ σ) (ctx : κ) (request : APIGatewayProxyRequest)
    (s : σ) :
    (handler unmarshalMap tableName client ctx request s).1.1.Headers.lookup
        "Access-Control-Allow-Origin" = some "*" ∧
    (handler unmarshalMap tableName client ctx request s).1.1.Headers.lookup
        "Access-Control-Allow-Methods" = some "POST, OPTIONS" ∧
    (handler unmarshalMap tableName client ctx request s).1.1.Headers.lookup
        "Access-Control-Allow-Headers" = some "Content-Type" := by
  rw [handler_eq]
  rcases (client ctx (updateInput tableName) s).1 with err | result
  · exact ⟨rfl, rfl, rfl⟩
  · simp only []
    rcases unmarshalMap result.Attributes with err | vc
    · exact ⟨rfl, rfl, rfl⟩
    · exact ⟨rfl, rfl, rfl⟩

/-- C5: for every request and every outcome of the store call the handler
returns a response with a nil error; the status is 200 or 500, and it is 200
exactly when the store call returned an output and the decoder accepted its
attributes. -/
theorem handler_total {κ σ : Type}
    (unmarshalMap : Option (List (String × AttributeValue)) → Except String VisitorCount)
    (tableName : String) (client : Client κ σ) (ctx : κ) (request : APIGatewayProxyRequest)
    (s : σ) :
    (handler unmarshalMap tableName client ctx request s).1.2 = none ∧
    ((handler unmarshalMap tableName client ctx request s).1.1.StatusCode = 200 ∨
      (handler unmarshalMap tableName client ctx request s).1.1.StatusCode = 500) ∧
    ((handler unmarshalMap tableName client ctx request s).1.1.StatusCode = 200 ↔
      ∃ result visitorCount,
        (client ctx (updateInput tableName) s).1 = .ok result ∧
        unmarshalMap result.Attributes = .ok visitorCount) := by
  rw [handler_eq]
  rcases (client ctx (updateInput tableName) s).1 with err | result
  · simp [errorResponse]
  · simp only []
    rcases hd : unmarshalMap result.Attributes with err | vc
    · simp [errorResponse, hd]
    · simp [countResponse, hd]

/-- C9: when initialisation completes, the table name is the value of
`TABLE_NAME` if that is set and non-empty and `VisitorCount` otherwise; it is
never empty, and every request the handler sends to the store names it. -/
theorem init_tableName {γ ρ κ : Type} (env : String → Option String) (cfg : γ)
    (newFromConfig : γ → ρ) :
    ∃ g : Globals ρ,
      init env (.ok cfg) newFromConfig = .ok g ∧
      g.tableName =
        (match env "TABLE_NAME" with
         | none => "VisitorCount"
         | some v => if v = "" then "VisitorCount" else v) ∧
      g.tableName ≠ "" ∧
      ∀ (unmarshalMap : Option (List (String × AttributeValue)) → Except String VisitorCount)
        (outcome : Except String UpdateItemOutput) (ctx : κ) (request : APIGatewayProxyRequest),
        ∀ input ∈ (handler unmarshalMap g.tableName (recordingClient outcome) ctx request []).2,
          input.TableName = some g.tableName := by
  refine ⟨_, rfl, ?_, ?_, ?_⟩
  · cases h : env "TABLE_NAME" with
    | none => simp
    | some v => simp
  · cases h : env "TABLE_NAME" with
    | none => simp
    | some v =>
      by_cases hv : v = ""
      · simp [hv]
      · simp [hv]
  · intro unmarshalMap outcome ctx request input hin
    rw [handler_eq] at hin
    simp only [recordingClient, List.nil_append, List.mem_singleton] at hin
    subst hin
    rfl

/-- C10: the handler calls the store exactly once, whatever the outcome, with
the same request for every inbound request: key `id = visitor-count`, the
update `ADD #count :inc` with `#count` bound to `count` and `:inc` to the
number 1, no condition, all new attributes returned. Two invocations whose
store calls have the same outcome return the same response, whatever their
requests. -/
theorem handler_ignores_request {κ σ τ : Type}
    (unmarshalMap : Option (List (String × AttributeValue)) → Except String VisitorCount)
    (tableName : String) (client1 : Client κ σ) (client2 : Client κ τ) (ctx1 ctx2 : κ)
    (r1 r2 : APIGatewayProxyRequest) (s1 : σ) (s2 : τ)
    (hout : (client1 ctx1 (updateInput tableName) s1).1 =
      (client2 ctx2 (updateInput tableName) s2).1) :
    (handler unmarshalMap tableName client1 ctx1 r1 s1).1 =
      (handler unmarshalMap tableName client2 ctx2 r2 s2).1 ∧
    handler unmarshalMap tableName client1 ctx1 r1 s1 =
      handler unmarshalMap tableName client1 ctx1 r2 s1 ∧
    (handler unmarshalMap tableName client1 ctx1 r1 s1).2 =
      (client1 ctx1 (updateInput tableName) s1).2 ∧
    (∀ (outcome : Except String UpdateItemOutput) (log : List UpdateItemInput),
      (handler unmarshalMap tableName (recordingClient outcome) ctx1 r1 log).2 =
        log ++ [updateInput tableName]) ∧
    (updateInput tableName).Key.length = 1 ∧
    (∃ v, (updateInput tableName).Key.lookup "id" = some (.S v) ∧ v = "visitor-count") ∧
    (updateInput tableName).UpdateExpression = some "ADD #count :inc" ∧
    (updateInput tableName).ExpressionAttributeNames = [("#count", "count")] ∧
    (updateInput tableName).ExpressionAttributeValues.length = 1 ∧
    (∃ v, (updateInput tableName).ExpressionAttributeValues.lookup ":inc" = some (.N v) ∧
      v = "1") ∧
    (updateInput tableName).ConditionExpression = none ∧
    (updateInput tableName).ReturnValues = .ALL_NEW := by
  refine ⟨?_, ?_, ?_, ?_, rfl, ⟨_, rfl, rfl⟩, rfl, rfl, rfl, ⟨_, rfl, rfl⟩, rfl, rfl⟩
  · rw [handler_eq, handler_eq, hout]
  · rw [handler_eq, handler_eq]
  · rw [handler_eq]
  · intro outcome log
    rw [handler_eq]
    rfl

/-- C10, for a GET and a POST request, one served by a failing store and one
by a recording client given the same failure. -/
theorem handler_ignores_request_witness :
    (handler (UnmarshalMap plainQuote) "VisitorCount"
        (fun (_ : Unit) _ (s : Unit) => (Except.error "down", s)) ()
        { HTTPMethod := "GET", Path := "/a", Headers := [], Body := "" } ()).1 =
    (handler (UnmarshalMap plainQuote) "VisitorCount" (recordingClient (Except.error "down")) ()
        { HTTPMethod := "POST", Path := "/b", Headers := [("X", "y")], Body := "z" } []).1 :=
  (handler_ignores_request (UnmarshalMap plainQuote) "VisitorCount"
    (fun (_ : Unit) _ (s : Unit) => (Except.error "down", s))
    (recordingClient (Except.error "down")) () ()
    { HTTPMethod := "GET", Path := "/a", Headers := [], Body := "" }
    { HTTPMethod := "POST", Path := "/b", Headers := [("X", "y")], Body := "z" } () [] rfl).1

/-! ### The handler over the atomic-add store -/

theorem atomicAddStore_updateInput {κ : Type} (tableName : String) (ctx : κ) (s : Store) :
    atomicAddStore ctx (updateInput tableName) s =
      (.ok { Attributes := some (counterRecord (s.getD 0 + 1)) }, some (s.getD 0 + 1)) := by
  have h1 : parseInt "1".data = .ok 1 := by rfl
  simp [atomicAddStore, updateInput, List.lookup, h1, counterRecord]

theorem UnmarshalMap_counterRecord (quote : String → String) (n : Int) :
    UnmarshalMap quote (some (counterRecord n)) =
      match parseInt (formatInt n) with
      | .error e => .error (numError quote ⟨formatInt n⟩ e)
      | .ok i => .ok { ID := GoString.ofString "visitor-count", Count := i } := by
  have h1 : FieldByName "id" = some .ID := by decide
  have h2 : FieldByName "count" = some .Count := by decide
  simp only [UnmarshalMap, counterRecord, Option.getD_some, decodeMap, h1, h2, decodeID,
    decodeCount]
  cases parseInt (formatInt n) <;> rfl

theorem counterReport_inRange (quote : String → String) (n : Int)
    (hlo : -(2 : Int) ^ 63 ≤ n) (hhi : n < (2 : Int) ^ 63) :
    counterReport quote n = countResponse n := by
  simp only [counterReport, UnmarshalMap_counterRecord, parseInt_formatInt n hlo hhi]

theorem counterReport_success (quote : String → String) (n : Int)
    (h : (counterReport quote n).StatusCode = 200) :
    counterReport quote n = countResponse n := by
  simp only [counterReport, UnmarshalMap_counterRecord] at h ⊢
  cases hp : parseInt (formatInt n) with
  | error e => rw [hp] at h; simp [errorResponse] at h
  | ok i => simp only [parseInt_formatInt_sound n i hp]

theorem handler_atomicAddStore {κ : Type} (quote : String → String) (tableName : String)
    (ctx : κ) (request : APIGatewayProxyRequest) (s : Store) :
    handler (UnmarshalMap quote) tableName atomicAddStore ctx request s =
      ((counterReport quote (s.getD 0 + 1), none), some (s.getD 0 + 1)) := by
  rw [handler_eq, atomicAddStore_updateInput]
  rfl

theorem invokeAll_atomicAddStore_state {κ : Type} (quote : String → String)
    (tableName : String) (ctx : κ) (reqs : List APIGatewayProxyRequest) :
    ∀ s : Store,
      (invokeAll (UnmarshalMap quote) tableName atomicAddStore ctx reqs s).2.getD 0 =
        s.getD 0 + reqs.length := by
  induction reqs with
  | nil => intro s; simp [invokeAll]
  | cons r rs ih =>
    intro s
    simp only [invokeAll, handler_atomicAddStore, ih, Option.getD_some, List.length_cons]
    push_cast
    ring

theorem invokeAll_atomicAddStore_get {κ : Type} (quote : String → String)
    (tableName : String) (ctx : κ) (reqs : List APIGatewayProxyRequest) :
    ∀ (s : Store) (k : Nat), k < reqs.length →
      (invokeAll (UnmarshalMap quote) tableName atomicAddStore ctx reqs s).1[k]? =
        some (counterReport quote (s.getD 0 + (k + 1)), none) := by
  induction reqs with
  | nil => intro s k hk; simp at hk
  | cons r rs ih =>
    intro s k hk
    cases k with
    | zero => simp [invokeAll, handler_atomicAddStore]
    | succ k =>
      simp only [List.length_cons, Nat.add_lt_add_iff_right] at hk
      simp only [invokeAll, handler_atomicAddStore, List.getElem?_cons_succ, ih _ k hk,
        Option.getD_some]
      congr 3
      push_cast
      ring

theorem countResponse_injective (a b : Int) (hlo : -(2 : Int) ^ 63 ≤ a)
    (hhi : a < (2 : Int) ^ 63) (h : (countResponse a).Body = (countResponse b).Body) :
    a = b := by
  have h := congrArg String.data h
  simp only [countResponse, List.append_cancel_left_eq, List.append_cancel_right_eq] at h
  have hp := parseInt_formatInt a hlo hhi
  rw [h] at hp
  exact (parseInt_formatInt_sound b a hp)

/-- C6: over the atomic-add store, started with any count `C` (0 for an absent
record) and serving the requests in any order, the stored count ends at
`C + N`; the `k`-th invocation applied returns a nil error and a response that,
whenever it is a success (and it is one whenever `C + k` is a 64-bit integer),
reports exactly `C + k`; two invocations in a row report two different counts,
the second larger by one. -/
theorem atomic_add_counts {κ : Type} (quote : String → String) (tableName : String) (ctx : κ)
    (C : Store) (reqs order : List APIGatewayProxyRequest) (hperm : order.Perm reqs) :
    (invokeAll (UnmarshalMap quote) tableName atomicAddStore ctx order C).2.getD 0 =
      C.getD 0 + reqs.length ∧
    (∀ k, k < reqs.length →
      ∃ r, (invokeAll (UnmarshalMap quote) tableName atomicAddStore ctx order C).1[k]? =
          some (r, none) ∧
        (r.StatusCode = 200 → r = countResponse (C.getD 0 + (k + 1))) ∧
        (-(2 : Int) ^ 63 ≤ C.getD 0 + (k + 1) ∧ C.getD 0 + (k + 1) < (2 : Int) ^ 63 →
          r = countResponse (C.getD 0 + (k + 1)))) ∧
    (∀ r1 r2 : APIGatewayProxyRequest,
      -(2 : Int) ^ 63 ≤ C.getD 0 + 1 → C.getD 0 + 2 < (2 : Int) ^ 63 →
      (invokeAll (UnmarshalMap quote) tableName atomicAddStore ctx [r1, r2] C).1 =
          [(countResponse (C.getD 0 + 1), none), (countResponse (C.getD 0 + 2), none)] ∧
        (countResponse (C.getD 0 + 1)).Body ≠ (countResponse (C.getD 0 + 2)).Body ∧
        C.getD 0 + 1 < C.getD 0 + 2) := by
  have hlen : order.length = reqs.length := hperm.length_eq
  refine ⟨?_, ?_, ?_⟩
  · rw [invokeAll_atomicAddStore_state, hlen]
  · intro k hk
    refine ⟨_, invokeAll_atomicAddStore_get quote tableName ctx order C k (hlen ▸ hk), ?_, ?_⟩
    · exact counterReport_success quote _
    · intro h
      exact counterReport_inRange quote _ h.1 h.2
  · intro r1 r2 hlo hhi
    refine ⟨?_, ?_, by omega⟩
    · simp only [invokeAll, handler_atomicAddStore, Option.getD_some]
      rw [counterReport_inRange quote _ hlo (by omega),
        counterReport_inRange quote _ (by omega) (by omega)]
      congr 4
      ring
    · intro h
      have := countResponse_injective _ _ hlo (by omega) h
      omega

/-- C6, for three requests served in another order from the count 41. -/
theorem atomic_add_counts_witness :
    (invokeAll (UnmarshalMap plainQuote) "VisitorCount" atomicAddStore ()
        [{ HTTPMethod := "POST", Path := "/c", Headers := [], Body := "" },
         { HTTPMethod := "GET", Path := "/a", Headers := [], Body := "" },
         { HTTPMethod := "PUT", Path := "/b", Headers := [], Body := "" }]
        (some 41)).2.getD 0 = 44 :=
  (atomic_add_counts plainQuote "VisitorCount" () (some 41)
    [{ HTTPMethod := "GET", Path := "/a", Headers := [], Body := "" },
     { HTTPMethod := "PUT", Path := "/b", Headers := [], Body := "" },
     { HTTPMethod := "POST", Path := "/c", Headers := [], Body := "" }]
    [{ HTTPMethod := "POST", Path := "/c", Headers := [], Body := "" },
     { HTTPMethod := "GET", Path := "/a", Headers := [], Body := "" },
     { HTTPMethod := "PUT", Path := "/b", Headers := [], Body := "" }]
    (by decide)).1

/-! ### Reading a rendered integer as a JSON number -/

theorem takeDigits_append (ds : List Char) (c : Char) (rest : List Char)
    (hds : ∀ d ∈ ds, isDigit d = true) (hc : isDigit c = false) :
    takeDigits (ds ++ c :: rest) = (ds, c :: rest) := by
  induction ds with
  | nil => simp [takeDigits, hc]
  | cons d ds ih =>
    have hd : isDigit d = true := hds d (List.mem_cons_self _ _)
    have := ih (fun x hx => hds x (List.mem_cons_of_mem _ hx))
    simp [takeDigits, hd, this]

theorem digitsValue_snoc (ds : List Char) (c : Char) :
    digitsValue (ds ++ [c]) = digitsValue ds * 10 + (c.toNat - 48) := by
  simp [digitsValue, List.foldl_append]

theorem digitsValue_formatUint (n : Nat) : digitsValue (formatUint n) = n := by
  induction n using Nat.strong_induction_on with
  | _ n ih =>
    rw [formatUint_eq]
    by_cases h : n < 10
    · simp only [h, if_true]
      have := digitChar_toNat n h
      simp [digitsValue, this]
    · simp only [h, if_false]
      rw [digitsValue_snoc, ih (n / 10) (by omega), digitChar_toNat _ (by omega)]
      omega

theorem parseUnsigned_formatUint (n : Nat) (c : Char) (rest : List Char)
    (hc : isDigit c = false) (hdot : c ≠ '.') (he : c ≠ 'e') (hE : c ≠ 'E') :
    parseUnsigned (formatUint n ++ c :: rest) = some ((n, [], []), c :: rest) := by
  obtain ⟨d, ds, hd, hdig, hz⟩ := formatUint_cons n
  have htake := takeDigits_append (formatUint n) c rest (formatUint_digits n) hc
  have hval := digitsValue_formatUint n
  rw [hd] at htake hval ⊢
  simp only [List.cons_append, parseUnsigned, hdig, if_true]
  by_cases h0 : d = '0'
  · obtain ⟨hn, hds⟩ := hz h0
    subst hn hds h0
    simp [parseFrac, parseExp, hdot, he, hE, digitsValue]
  · simp only [h0, if_false]
    rw [List.cons_append] at htake
    rw [htake]
    simp [parseFrac, parseExp, hdot, he, hE, hval]

theorem parseNumber_formatInt (i : Int) (c : Char) (rest : List Char)
    (hc : isDigit c = false) (hdot : c ≠ '.') (he : c ≠ 'e') (hE : c ≠ 'E') :
    parseNumber (formatInt i ++ c :: rest) = some (.int i, c :: rest) := by
  by_cases hneg : i < 0
  · simp only [formatInt, hneg, if_true, List.cons_append, parseNumber,
      parseUnsigned_formatUint _ c rest hc hdot he hE, JsonValue.int, decide_True]
  · obtain ⟨d, ds, hd, hdig, -⟩ := formatUint_cons i.toNat
    have hu := parseUnsigned_formatUint i.toNat c rest hc hdot he hE
    have hminus : d ≠ '-' := by intro h; rw [h] at hdig; exact absurd hdig (by decide)
    simp only [formatInt, hneg, if_false]
    rw [hd] at hu ⊢
    simp only [List.cons_append, parseNumber, hminus, if_false]
    rw [List.cons_append] at hu
    rw [hu]
    have hn : i.toNat = i.natAbs := by omega
    simp only [JsonValue.int, hneg, decide_False, hn]

theorem formatInt_cons (i : Int) :
    ∃ c cs, formatInt i = c :: cs ∧ (c = '-' ∨ isDigit c = true) := by
  by_cases hneg : i < 0
  · exact ⟨'-', formatUint i.natAbs, by simp [formatInt, hneg], Or.inl rfl⟩
  · obtain ⟨d, ds, hd, hdig, -⟩ := formatUint_cons i.toNat
    exact ⟨d, ds, by simp [formatInt, hneg, hd], Or.inr hdig⟩

theorem parseValue_number (fuel : Nat) (c : Char) (cs : List Char)
    (h : c = '-' ∨ isDigit c = true) :
    parseValue (fuel + 1) (c :: cs) = parseNumber (c :: cs) ∧ skipWs (c :: cs) = c :: cs := by
  have h1 : c ≠ '{' := by rintro rfl; revert h; decide
  have h2 : c ≠ '[' := by rintro rfl; revert h; decide
  have h3 : c ≠ '"' := by rintro rfl; revert h; decide
  have h4 : c ≠ 't' := by rintro rfl; revert h; decide
  have h5 : c ≠ 'f' := by rintro rfl; revert h; decide
  have h6 : c ≠ 'n' := by rintro rfl; revert h; decide
  have h7 : c ≠ ' ' := by rintro rfl; revert h; decide
  have h8 : c ≠ '\t' := by rintro rfl; revert h; decide
  have h9 : c ≠ '\n' := by rintro rfl; revert h; decide
  have h10 : c ≠ '\r' := by rintro rfl; revert h; decide
  constructor
  · simp only [parseValue, h1, h2, h3, h4, h5, h6, if_false]
  · simp only [skipWs, h7, h8, h9, h10, or_self, if_false]

theorem hexVal_hexDigit (n : Nat) (h : n < 16) : hexVal (hexDigit n) = some n := by
  interval_cases n <;> rfl


theorem parseStrFrom_plain (c : Char) (tail : List Char) (h1 : c ≠ '"') (h2 : c ≠ '\\')
    (h3 : ¬ c.toNat < 32) :
    parseStrFrom none (c :: tail) = consChar c (parseStrFrom none tail) := by
  conv_lhs => unfold parseStrFrom
  simp only [h1, h2, h3, if_false, flushPending]

theorem parseStrFrom_quote (tail : List Char) :
    parseStrFrom none ('"' :: tail) = some ([], tail) := by
  conv_lhs => unfold parseStrFrom
  simp only [if_true, flushPending]

theorem parseStrFrom_simple (e : Char) (tail : List Char) (he : e = '"' ∨ e = '\\' ∨ e = '/') :
    parseStrFrom none ('\\' :: e :: tail) = consChar e (parseStrFrom none tail) := by
  conv_lhs => unfold parseStrFrom
  have : ('\\' : Char) ≠ '"' := by decide
  simp only [this, he, if_true, if_false, flushPending]

theorem parseStrFrom_hex (a b : Nat) (ha : a < 8) (hb : b < 16) (tail : List Char) :
    parseStrFrom none ('\\' :: 'u' :: '0' :: '0' :: hexDigit a :: hexDigit b :: tail) =
      consChar (Char.ofNat (a * 16 + b)) (parseStrFrom none tail) := by
  have h0 : hexVal '0' = some 0 := rfl
  conv_lhs => unfold parseStrFrom
  have h1 : ¬ (0xDC00 ≤ a * 16 + b ∧ a * 16 + b < 0xE000) := by omega
  have h2 : ¬ (0xD800 ≤ a * 16 + b ∧ a * 16 + b < 0xDC00) := by omega
  have h3 : hex4 '0' '0' (hexDigit a) (hexDigit b) = some (a * 16 + b) := by
    simp [hex4, h0, hexVal_hexDigit a (by omega), hexVal_hexDigit b hb]
  simp [h3, h1, h2, flushPending]

theorem char_eq_of_toNat {c d : Char} (h : c.toNat = d.toNat) : c = d := by
  rw [← Char.ofNat_toNat c, ← Char.ofNat_toNat d, h]

theorem parseStrFrom_escapeChar (c : Char) (tail : List Char) :
    parseStrFrom none (escapeChar c ++ tail) = consChar c (parseStrFrom none tail) := by
  unfold escapeChar
  split_ifs with h1 h2 h3 h4 h5 h6 h7 h8 h9
  · simp only [htmlSafe, Bool.and_eq_true, decide_eq_true_eq, bne_iff_ne, ne_eq] at h2
    exact parseStrFrom_plain c tail h2.1.1.1.1.2 h2.2 (by omega)
  · exact parseStrFrom_simple c tail (by tauto)
  · subst h4; simp only [List.cons_append, List.nil_append]
    conv_lhs => unfold parseStrFrom
    simp [flushPending]
  · subst h5; simp only [List.cons_append, List.nil_append]
    conv_lhs => unfold parseStrFrom
    simp [flushPending]
  · subst h6; simp only [List.cons_append, List.nil_append]
    conv_lhs => unfold parseStrFrom
    simp [flushPending]
  · subst h7; simp only [List.cons_append, List.nil_append]
    conv_lhs => unfold parseStrFrom
    simp [flushPending]
  · subst h8; simp only [List.cons_append, List.nil_append]
    conv_lhs => unfold parseStrFrom
    simp [flushPending]
  · have := parseStrFrom_hex (c.toNat / 16) (c.toNat % 16) (by omega) (by omega) tail
    simp only [List.cons_append, List.nil_append]
    rw [this]
    have e : c.toNat / 16 * 16 + c.toNat % 16 = c.toNat := by omega
    rw [e, Char.ofNat_toNat]
  · rcases h9 with h | h
    · have hc : c = Char.ofNat 0x2028 := char_eq_of_toNat (by rw [h]; rfl)
      subst hc
      simp only [List.cons_append, List.nil_append]
      conv_lhs => unfold parseStrFrom
      have h3 : hex4 '2' '0' '2' (hexDigit 8) = some 0x2028 := rfl
      simp [h3, flushPending]
    · have hc : c = Char.ofNat 0x2029 := char_eq_of_toNat (by rw [h]; rfl)
      subst hc
      simp only [List.cons_append, List.nil_append]
      conv_lhs => unfold parseStrFrom
      have h3 : hex4 '2' '0' '2' (hexDigit 9) = some 0x2029 := rfl
      simp [h3, flushPending]
  · have n1 : c ≠ '"' := by rintro rfl; exact h1 (by decide)
    have n2 : c ≠ '\\' := by rintro rfl; exact h1 (by decide)
    exact parseStrFrom_plain c tail n1 n2 (by omega)

theorem parseStr_encoded (s : List Char) (rest : List Char) :
    parseStr (s.flatMap escapeChar ++ '"' :: rest) = some (s, rest) := by
  unfold parseStr
  induction s with
  | nil => exact parseStrFrom_quote rest
  | cons c cs ih =>
    rw [List.flatMap_cons, List.append_assoc, parseStrFrom_escapeChar, ih]
    rfl

theorem parseValue_object (fuel : Nat) (cs : List Char) :
    parseValue (fuel + 1) ('{' :: '"' :: cs) =
      match parseMembers fuel ('"' :: cs) with
      | none => none
      | some (ms, r) => some (.obj ms, r) := by
  rw [parseValue]
  simp [skipWs]

theorem parseValue_string (fuel : Nat) (cs : List Char) :
    parseValue (fuel + 1) ('"' :: cs) =
      match parseStr cs with
      | none => none
      | some (s, r) => some (.str ⟨s⟩, r) := by
  rw [parseValue]
  simp

theorem parseMembers_key (fuel : Nat) (cs : List Char) :
    parseMembers (fuel + 1) ('"' :: cs) =
      match parseStr cs with
      | none => none
      | some (k, r) =>
        match skipWs r with
        | [] => none
        | d :: ds =>
          if d = ':' then
            match parseValue fuel (skipWs ds) with
            | none => none
            | some (v, r1) =>
              match skipWs r1 with
              | [] => none
              | e :: es =>
                if e = '}' then some ([(⟨k⟩, v)], es)
                else if e = ',' then
                  match parseMembers fuel (skipWs es) with
                  | none => none
                  | some (ms, r2) => some ((⟨k⟩, v) :: ms, r2)
                else none
          else none := by
  rw [parseMembers]
  simp

theorem parseMembers_last (fuel : Nat) (cs k ds es : List Char) (v : JsonValue)
    (hk : parseStr cs = some (k, ':' :: ds))
    (hv : parseValue fuel (skipWs ds) = some (v, '}' :: es)) :
    parseMembers (fuel + 1) ('"' :: cs) = some ([(⟨k⟩, v)], es) := by
  rw [parseMembers_key, hk]
  simp [skipWs, hv]

theorem parseMembers_more (fuel : Nat) (cs k ds es r : List Char) (v : JsonValue)
    (ms : List (String × JsonValue))
    (hk : parseStr cs = some (k, ':' :: ds))
    (hv : parseValue fuel (skipWs ds) = some (v, ',' :: es))
    (hm : parseMembers fuel (skipWs es) = some (ms, r)) :
    parseMembers (fuel + 1) ('"' :: cs) = some ((⟨k⟩, v) :: ms, r) := by
  rw [parseMembers_key, hk]
  simp [skipWs, hv, hm]

theorem parseValue_formatInt (fuel : Nat) (i : Int) (rest : List Char) :
    parseValue (fuel + 1) (skipWs (formatInt i ++ '}' :: rest)) =
      some (.int i, '}' :: rest) := by
  obtain ⟨c, cs, hc, hcd⟩ := formatInt_cons i
  have hnum := parseNumber_formatInt i '}' rest (by decide) (by decide) (by decide) (by decide)
  rw [hc] at hnum ⊢
  rw [List.cons_append] at hnum ⊢
  rw [(parseValue_number fuel c _ hcd).2, (parseValue_number fuel c _ hcd).1, hnum]

/-- The body of a success response is the JSON object with the one member
`count`, an integer with the reported value. -/
theorem parseJSON_countResponse (v : Int) :
    parseJSON (countResponse v).Body = some (.obj [("count", .int v)]) := by
  have hk : parseStr ("count\":".data ++ (formatInt v ++ ['}'])) =
      some ("count".data, ':' :: (formatInt v ++ ['}'])) :=
    parseStr_encoded "count".data (':' :: (formatInt v ++ ['}']))
  have hlen : (countResponse v).Body.data.length + 1 = ((formatInt v).length + 8 + 1 + 1) + 1 := by
    simp [countResponse]
  have hm := parseMembers_last ((formatInt v).length + 8 + 1) _ _ _ [] _ hk
    (parseValue_formatInt _ v [])
  have hbody : (countResponse v).Body.data =
      '{' :: '"' :: ("count\":".data ++ (formatInt v ++ ['}'])) := by
    simp [countResponse]
  unfold parseJSON
  rw [hlen, hbody]
  have hs : skipWs ('{' :: '"' :: ("count\":".data ++ (formatInt v ++ ['}']))) =
      '{' :: '"' :: ("count\":".data ++ (formatInt v ++ ['}'])) := by
    simp [skipWs]
  rw [hs, parseValue_object, hm]
  rfl

/-- C1: when the store call succeeds and the decoder returns a record with
count `V`, the handler returns, with a nil error, status 200, the body
`{"count":V}` with `V` in decimal, which is the JSON object whose one member
`count` is the integer `V`, and the three CORS headers together with
`Content-Type: application/json`. -/
theorem handler_success {κ σ : Type}
    (unmarshalMap : Option (List (String × AttributeValue)) → Except String VisitorCount)
    (tableName : String) (client : Client κ σ) (ctx : κ) (request : APIGatewayProxyRequest)
    (s s1 : σ) (result : UpdateItemOutput) (visitorCount : VisitorCount) (V : Int)
    (hstore : client ctx (updateInput tableName) s = (.ok result, s1))
    (hdecode : unmarshalMap result.Attributes = .ok visitorCount)
    (hcount : visitorCount.Count = V) :
    (handler unmarshalMap tableName client ctx request s).1 =
      ({ StatusCode := 200
         Headers := [("Access-Control-Allow-Origin", "*"),
                     ("Access-Control-Allow-Methods", "POST, OPTIONS"),
                     ("Access-Control-Allow-Headers", "Content-Type"),
                     ("Content-Type", "application/json")]
         MultiValueHeaders := []
         Body := ⟨"\x7b\"count\":".data ++ formatInt V ++ "\x7d".data⟩
         IsBase64Encoded := false }, none) ∧
    parseJSON (handler unmarshalMap tableName client ctx request s).1.1.Body =
      some (.obj [("count", .int V)]) := by
  have h : (handler unmarshalMap tableName client ctx request s).1 = (countResponse V, none) := by
    rw [handler_eq, hstore]
    simp only [hdecode, hcount]
  rw [h]
  exact ⟨rfl, parseJSON_countResponse V⟩

/-- C1, for a store returning the record with count 42. -/
theorem handler_success_witness :
    (handler (UnmarshalMap plainQuote) "VisitorCount"
        (fun (_ : Unit) _ (s : Unit) =>
          (Except.ok { Attributes := some [("id", .S "visitor-count"), ("count", .N "42")] }, s))
        () { HTTPMethod := "POST", Path := "/", Headers := [], Body := "" } ()).1.1.Body =
      "\x7b\"count\":42\x7d" :=
  congrArg (fun r => r.1.Body)
    (handler_success (UnmarshalMap plainQuote) "VisitorCount"
      (fun (_ : Unit) _ (s : Unit) =>
        (Except.ok { Attributes := some [("id", .S "visitor-count"), ("count", .N "42")] }, s))
      () { HTTPMethod := "POST", Path := "/", Headers := [], Body := "" } () ()
      { Attributes := some [("id", .S "visitor-count"), ("count", .N "42")] }
      { ID := GoString.ofString "visitor-count", Count := 42 } 42 rfl rfl rfl).1

/-- C8 fails on the code: the error bodies are built by inserting the message
into a format string, without JSON escaping. For a store failure whose message
holds a double quote, such as a network error naming the URL, the body is not
valid JSON; a message can also add members to the object; and the detail of a
count that is not a decimal integer quotes the number, so that body is not
valid JSON either. -/
theorem error_body_not_escaped :
    (handler (UnmarshalMap plainQuote) "VisitorCount"
        (fun (_ : Unit) _ (s : Unit) => (Except.error "Post \"https://dynamodb\": EOF", s))
        () { HTTPMethod := "POST", Path := "/", Headers := [], Body := "" } ()).1.1.Body =
      "\x7b\"error\": \"Failed to update count: Post \"https://dynamodb\": EOF\"\x7d" ∧
    parseJSON (handler (UnmarshalMap plainQuote) "VisitorCount"
        (fun (_ : Unit) _ (s : Unit) => (Except.error "Post \"https://dynamodb\": EOF", s))
        () { HTTPMethod := "POST", Path := "/", Headers := [], Body := "" } ()).1.1.Body =
      none ∧
    parseJSON (handler (UnmarshalMap plainQuote) "VisitorCount"
        (fun (_ : Unit) _ (s : Unit) => (Except.error "x\", \"count\": \"1", s))
        () { HTTPMethod := "POST", Path := "/", Headers := [], Body := "" } ()).1.1.Body =
      some (.obj [("error", .str "Failed to update count: x"), ("count", .str "1")]) ∧
    (handler (UnmarshalMap plainQuote) "VisitorCount"
        (fun (_ : Unit) _ (s : Unit) => (Except.ok { Attributes := some [("count", .N "1.5")] }, s))
        () { HTTPMethod := "POST", Path := "/", Headers := [], Body := "" } ()).1.1.Body =
      "\x7b\"error\": \"Failed to parse count: strconv.ParseInt: parsing \"1.5\": invalid syntax\"\x7d" ∧
    parseJSON (handler (UnmarshalMap plainQuote) "VisitorCount"
        (fun (_ : Unit) _ (s : Unit) => (Except.ok { Attributes := some [("count", .N "1.5")] }, s))
        () { HTTPMethod := "POST", Path := "/", Headers := [], Body := "" } ()).1.1.Body =
      none := by
  refine ⟨by rfl, by rfl, by rfl, by rfl, by rfl⟩

/-! ### The JSON text of a record -/

theorem parseStrFrom_escapeUnit (u : GoUnit) (tail : List Char) :
    parseStrFrom none (escapeUnit u ++ tail) = consChar (unitChar u) (parseStrFrom none tail) := by
  cases u with
  | rune c => exact parseStrFrom_escapeChar c tail
  | invalid b =>
    simp only [escapeUnit, unitChar, List.cons_append, List.nil_append]
    conv_lhs => unfold parseStrFrom
    have h3 : hex4 'f' 'f' 'f' 'd' = some 0xFFFD := rfl
    simp [h3, flushPending]

theorem parseStr_encodedGo (s : GoString) (rest : List Char) :
    parseStr (s.flatMap escapeUnit ++ '"' :: rest) = some (s.map unitChar, rest) := by
  unfold parseStr
  induction s with
  | nil => exact parseStrFrom_quote rest
  | cons u us ih =>
    rw [List.flatMap_cons, List.append_assoc, parseStrFrom_escapeUnit, ih]
    rfl

theorem readBack_of_valid (s : GoString) (h : ∀ u ∈ s, ∃ c, u = GoUnit.rune c) :
    readBack s = s := by
  induction s with
  | nil => rfl
  | cons u us ih =>
    obtain ⟨c, hc⟩ := h u (List.mem_cons_self _ _)
    have := ih (fun x hx => h x (List.mem_cons_of_mem _ hx))
    unfold readBack at this ⊢
    rw [List.map_cons, this, hc]
    rfl

theorem parseValue_marshalVisitorCount (fuel : Nat) (vc : VisitorCount) :
    parseValue (fuel + 4) (marshalVisitorCount vc).data =
      some (.obj [("id", .str ⟨vc.ID.map unitChar⟩), ("count", .int vc.Count)], []) := by
  have hbody : (marshalVisitorCount vc).data =
      '{' :: '"' :: ("id".data.flatMap escapeChar ++ '"' :: ':' :: '"' ::
        (vc.ID.flatMap escapeUnit ++ '"' :: ',' :: '"' ::
          ("count".data.flatMap escapeChar ++ '"' :: ':' :: (formatInt vc.Count ++ ['}'])))) := by
    simp [marshalVisitorCount, encodeString, encodeGoString]
  rw [hbody, parseValue_object]
  have hcount := parseMembers_last (fuel + 1) _ _ _ [] _
    (parseStr_encoded "count".data (':' :: (formatInt vc.Count ++ ['}'])))
    (parseValue_formatInt fuel vc.Count [])
  have hid : parseValue (fuel + 2) (skipWs ('"' :: (vc.ID.flatMap escapeUnit ++ '"' :: ',' ::
      '"' :: ("count".data.flatMap escapeChar ++ '"' :: ':' :: (formatInt vc.Count ++ ['}']))))) =
      some (.str ⟨vc.ID.map unitChar⟩, ',' :: '"' ::
        ("count".data.flatMap escapeChar ++ '"' :: ':' :: (formatInt vc.Count ++ ['}']))) := by
    have hs : ∀ cs, skipWs ('"' :: cs) = '"' :: cs := by intro cs; simp [skipWs]
    rw [hs, parseValue_string, parseStr_encodedGo]
  have hall := parseMembers_more (fuel + 2) _ _ _ _ _ _ _
    (parseStr_encoded "id".data _) hid (by simpa [skipWs] using hcount)
  rw [hall]

theorem parseJSON_marshalVisitorCount (vc : VisitorCount) :
    parseJSON (marshalVisitorCount vc) =
      some (.obj [("id", .str ⟨vc.ID.map unitChar⟩), ("count", .int vc.Count)]) := by
  have hlen : 3 ≤ (marshalVisitorCount vc).data.length := by
    simp [marshalVisitorCount, encodeString, encodeGoString]
    omega
  obtain ⟨f, hf⟩ : ∃ f, (marshalVisitorCount vc).data.length + 1 = f + 4 :=
    ⟨(marshalVisitorCount vc).data.length - 3, by omega⟩
  have hs : skipWs (marshalVisitorCount vc).data = (marshalVisitorCount vc).data := by
    simp [marshalVisitorCount, skipWs]
  unfold parseJSON
  rw [hf, hs, parseValue_marshalVisitorCount]
  rfl

theorem unmarshal_marshalVisitorCount (vc : VisitorCount)
    (hlo : -(2 : Int) ^ 63 ≤ vc.Count) (hhi : vc.Count < (2 : Int) ^ 63) :
    unmarshalVisitorCount (marshalVisitorCount vc) =
      .ok { ID := readBack vc.ID, Count := vc.Count } := by
  have h1 : FieldByName "id" = some .ID := by decide
  have h2 : FieldByName "count" = some .Count := by decide
  have hv : (if decide (vc.Count < 0) = true then -(vc.Count.natAbs : Int)
      else (vc.Count.natAbs : Int)) = vc.Count := by
    by_cases hneg : vc.Count < 0
    · simp only [hneg, decide_True, if_true]; omega
    · simp only [hneg, decide_False, Bool.false_eq_true, if_false]; omega
  simp only [unmarshalVisitorCount, parseJSON_marshalVisitorCount, storeMembers, h1, h2,
    JsonValue.int, hv, hlo, hhi, and_self, if_true, readBack, GoString.ofString, List.map_map]
  rfl

/-- C7 as stated fails: for the id made of the single byte `0xff`, which is not
valid UTF-8, the encoder writes the escape of U+FFFD, and reading the JSON text
back gives the id U+FFFD, not the original value. -/
theorem invalid_utf8_id_not_restored :
    marshalVisitorCount { ID := [GoUnit.invalid 255], Count := 42 } =
      "\x7b\"id\":\"\\ufffd\",\"count\":42\x7d" ∧
    unmarshalVisitorCount (marshalVisitorCount { ID := [GoUnit.invalid 255], Count := 42 }) =
      .ok { ID := [GoUnit.rune (Char.ofNat 0xFFFD)], Count := 42 } ∧
    unmarshalVisitorCount (marshalVisitorCount { ID := [GoUnit.invalid 255], Count := 42 }) ≠
      .ok { ID := [GoUnit.invalid 255], Count := 42 } := by
  have h : unmarshalVisitorCount
      (marshalVisitorCount { ID := [GoUnit.invalid 255], Count := 42 }) =
      .ok { ID := [GoUnit.rune (Char.ofNat 0xFFFD)], Count := 42 } := by rfl
  refine ⟨by rfl, h, ?_⟩
  rw [h]
  intro hEq
  have hid := congrArg VisitorCount.ID (Except.ok.inj hEq)
  exact absurd hid (by decide)

/-- C7, amended: for every `VisitorCount` with a 64-bit count, the JSON written
is an object with exactly the members `id`, a string, and `count`, the integer
`Count`, in this order; the string is the id with every byte that is not valid
UTF-8 replaced by U+FFFD, and reading the text back gives the record with that
id; so for every id that is valid UTF-8 the member `id` holds the id and
reading back gives the original value; for `visitor-count` and 42 the text is
`{"id":"visitor-count","count":42}`. -/
theorem visitorCount_json_roundtrip (vc : VisitorCount)
    (hlo : -(2 : Int) ^ 63 ≤ vc.Count) (hhi : vc.Count < (2 : Int) ^ 63) :
    parseJSON (marshalVisitorCount vc) =
      some (.obj [("id", .str ⟨vc.ID.map unitChar⟩), ("count", .int vc.Count)]) ∧
    unmarshalVisitorCount (marshalVisitorCount vc) =
      .ok { ID := readBack vc.ID, Count := vc.Count } ∧
    (∀ s : String, vc.ID = GoString.ofString s →
      parseJSON (marshalVisitorCount vc) =
        some (.obj [("id", .str s), ("count", .int vc.Count)]) ∧
      unmarshalVisitorCount (marshalVisitorCount vc) = .ok vc) ∧
    marshalVisitorCount { ID := GoString.ofString "visitor-count", Count := 42 } =
      "\x7b" ++ "\"id\":\"visitor-count\"" ++ "," ++ "\"count\":42" ++ "\x7d" := by
  refine ⟨parseJSON_marshalVisitorCount vc, unmarshal_marshalVisitorCount vc hlo hhi, ?_,
    by rfl⟩
  intro s hs
  have hmap : vc.ID.map unitChar = s.data := by
    rw [hs, GoString.ofString, List.map_map]
    exact List.map_id _
  have hvalid : ∀ u ∈ vc.ID, ∃ c, u = GoUnit.rune c := by
    intro u hu
    rw [hs, GoString.ofString, List.mem_map] at hu
    obtain ⟨c, -, hc⟩ := hu
    exact ⟨c, hc.symm⟩
  constructor
  · rw [parseJSON_marshalVisitorCount, hmap]
  · rw [unmarshal_marshalVisitorCount vc hlo hhi, readBack_of_valid vc.ID hvalid]

/-- C7 amended, for the record of the test. -/
theorem visitorCount_json_roundtrip_witness :
    unmarshalVisitorCount
        (marshalVisitorCount { ID := GoString.ofString "visitor-count", Count := 42 }) =
      .ok { ID := GoString.ofString "visitor-count", Count := 42 } :=
  ((visitorCount_json_roundtrip { ID := GoString.ofString "visitor-count", Count := 42 }
    (by decide) (by decide)).2.2.1 "visitor-count" rfl).2

/-! ### A record without the count -/

theorem decodeMap_without_count (quote : String → String) :
    ∀ (m : List (String × AttributeValue)) (v : VisitorCount),
      (∀ kv ∈ m, FieldByName kv.1 ≠ some .Count) →
      (∀ kv ∈ m, FieldByName kv.1 = some .ID →
        (∃ x, kv.2 = .S x) ∨ (∃ x, kv.2 = .N x) ∨ (∃ x, kv.2 = .NULL x)) →
      ∃ vc, decodeMap quote m v = .ok vc ∧ vc.Count = v.Count := by
  intro m
  induction m with
  | nil => intro v _ _; exact ⟨v, rfl, rfl⟩
  | cons kv rest ih =>
    intro v hm hid
    obtain ⟨k, av⟩ := kv
    have hk : FieldByName k ≠ some .Count := hm (k, av) (List.mem_cons_self _ _)
    have hrest : ∀ kv ∈ rest, FieldByName kv.1 ≠ some .Count :=
      fun kv hkv => hm kv (List.mem_cons_of_mem _ hkv)
    have hidrest : ∀ kv ∈ rest, FieldByName kv.1 = some .ID →
        (∃ x, kv.2 = .S x) ∨ (∃ x, kv.2 = .N x) ∨ (∃ x, kv.2 = .NULL x) :=
      fun kv hkv => hid kv (List.mem_cons_of_mem _ hkv)
    cases hf : FieldByName k with
    | none =>
      simp only [decodeMap, hf]
      exact ih v hrest hidrest
    | some f =>
      cases f with
      | Count => exact absurd hf hk
      | ID =>
        have hav := hid (k, av) (List.mem_cons_self _ _) hf
        simp only at hav
        rcases hav with ⟨x, rfl⟩ | ⟨x, rfl⟩ | ⟨x, rfl⟩
        · simp only [decodeMap, hf, decodeID]
          exact ih { ID := GoString.ofString x, Count := v.Count } hrest hidrest
        · simp only [decodeMap, hf, decodeID]
          exact ih { ID := GoString.ofString x, Count := v.Count } hrest hidrest
        · simp only [decodeMap, hf, decodeID]
          exact ih { ID := [], Count := v.Count } hrest hidrest

theorem decodeMap_count_string (quote : String → String) :
    ∀ (m : List (String × AttributeValue)) (v : VisitorCount),
      (∃ kv ∈ m, FieldByName kv.1 = some .Count ∧ ∃ x, kv.2 = .S x) →
      ∃ err, decodeMap quote m v = .error err := by
  intro m
  induction m with
  | nil => intro v h; obtain ⟨kv, hkv, -⟩ := h; simp at hkv
  | cons kv rest ih =>
    intro v h
    obtain ⟨w, hw, hwf, x, hwx⟩ := h
    obtain ⟨k, av⟩ := kv
    rcases List.mem_cons.mp hw with hhead | htail
    · subst hhead
      simp only at hwf hwx
      subst hwx
      exact ⟨unmarshalTypeError "string" "int", by simp only [decodeMap, hwf, decodeCount]⟩
    · have hex : ∃ kv ∈ rest, FieldByName kv.1 = some .Count ∧ ∃ x, kv.2 = .S x :=
        ⟨w, htail, hwf, x, hwx⟩
      cases hf : FieldByName k with
      | none =>
        simp only [decodeMap, hf]
        exact ih v hex
      | some f =>
        cases f with
        | ID =>
          cases hd : decodeID av with
          | error e => exact ⟨e, by simp only [decodeMap, hf, hd]⟩
          | ok sid =>
            simp only [decodeMap, hf, hd]
            exact ih _ hex
        | Count =>
          cases hd : decodeCount quote av with
          | error e => exact ⟨e, by simp only [decodeMap, hf, hd]⟩
          | ok i =>
            simp only [decodeMap, hf, hd]
            exact ih _ hex

/-- C3 as stated fails: for a store that returns the record with the key alone
and no `count`, the decoder reports no error and the handler answers 200 with
the count 0. -/
theorem missing_count_not_rejected :
    (handler (UnmarshalMap plainQuote) "VisitorCount"
        (fun (_ : Unit) _ (s : Unit) =>
          (Except.ok { Attributes := some [("id", .S "visitor-count")] }, s))
        () { HTTPMethod := "POST", Path := "/", Headers := [], Body := "" } ()).1 =
      ({ StatusCode := 200
         Headers := [("Access-Control-Allow-Origin", "*"),
                     ("Access-Control-Allow-Methods", "POST, OPTIONS"),
                     ("Access-Control-Allow-Headers", "Content-Type"),
                     ("Content-Type", "application/json")]
         MultiValueHeaders := []
         Body := "\x7b\"count\":0\x7d"
         IsBase64Encoded := false }, none) ∧
    (handler (UnmarshalMap plainQuote) "VisitorCount"
        (fun (_ : Unit) _ (s : Unit) =>
          (Except.ok { Attributes := some [("id", .S "visitor-count")] }, s))
        () { HTTPMethod := "POST", Path := "/", Headers := [], Body := "" } ()).1.1.StatusCode
      ≠ 500 := by
  constructor
  · rfl
  · decide

/-- C3, amended: when the store call succeeds, (1) if no key of the returned
record names the field `count` and every attribute whose key names `id` is a
string, a number or null, the handler returns status 200 with the body
`{"count":0}`, the three CORS headers and `Content-Type`: a missing count is
not a decoding failure; (2) whenever the decoder reports an error the handler
returns status 500, the body `{"error": "Failed to parse count: ` followed by
the detail and `"}`, and exactly the three CORS headers; (3) the status is 500
exactly when the decoder reports an error; (4) it does so when an attribute
whose key names `count` is a string, so the handler then returns status 500
with a body that starts with `{"error": "Failed to parse count: `. -/
theorem missing_count_reports_zero {κ σ : Type} (quote : String → String) (tableName : String)
    (client : Client κ σ) (ctx : κ) (request : APIGatewayProxyRequest) (s s1 : σ)
    (result : UpdateItemOutput)
    (hstore : client ctx (updateInput tableName) s = (.ok result, s1)) :
    ((∀ kv ∈ result.Attributes.getD [], FieldByName kv.1 ≠ some .Count) →
      (∀ kv ∈ result.Attributes.getD [], FieldByName kv.1 = some .ID →
        (∃ x, kv.2 = .S x) ∨ (∃ x, kv.2 = .N x) ∨ (∃ x, kv.2 = .NULL x)) →
      (handler (UnmarshalMap quote) tableName client ctx request s).1 =
        ({ StatusCode := 200
           Headers := [("Access-Control-Allow-Origin", "*"),
                       ("Access-Control-Allow-Methods", "POST, OPTIONS"),
                       ("Access-Control-Allow-Headers", "Content-Type"),
                       ("Content-Type", "application/json")]
           MultiValueHeaders := []
           Body := "\x7b\"count\":0\x7d"
           IsBase64Encoded := false }, none)) ∧
    (∀ err, UnmarshalMap quote result.Attributes = .error err →
      (handler (UnmarshalMap quote) tableName client ctx request s).1 =
        ({ StatusCode := 500
           Headers := [("Access-Control-Allow-Origin", "*"),
                       ("Access-Control-Allow-Methods", "POST, OPTIONS"),
                       ("Access-Control-Allow-Headers", "Content-Type")]
           MultiValueHeaders := []
           Body := "\x7b\"error\": \"Failed to parse count: " ++ (err ++ "\"\x7d")
           IsBase64Encoded := false }, none)) ∧
    ((handler (UnmarshalMap quote) tableName client ctx request s).1.1.StatusCode = 500 ↔
      ∃ err, UnmarshalMap quote result.Attributes = .error err) ∧
    ((∃ kv ∈ result.Attributes.getD [], FieldByName kv.1 = some .Count ∧ ∃ x, kv.2 = .S x) →
      ∃ err, (handler (UnmarshalMap quote) tableName client ctx request s).1 =
        ({ StatusCode := 500
           Headers := [("Access-Control-Allow-Origin", "*"),
                       ("Access-Control-Allow-Methods", "POST, OPTIONS"),
                       ("Access-Control-Allow-Headers", "Content-Type")]
           MultiValueHeaders := []
           Body := "\x7b\"error\": \"Failed to parse count: " ++ (err ++ "\"\x7d")
           IsBase64Encoded := false }, none)) := by
  have herr : ∀ err, UnmarshalMap quote result.Attributes = .error err →
      (handler (UnmarshalMap quote) tableName client ctx request s).1 =
        ({ StatusCode := 500
           Headers := [("Access-Control-Allow-Origin", "*"),
                       ("Access-Control-Allow-Methods", "POST, OPTIONS"),
                       ("Access-Control-Allow-Headers", "Content-Type")]
           MultiValueHeaders := []
           Body := "\x7b\"error\": \"Failed to parse count: " ++ (err ++ "\"\x7d")
           IsBase64Encoded := false }, none) := by
    intro err he
    rw [handler_eq, hstore]
    simp only [he, errorResponse, corsHeaders, String.append_assoc]
  refine ⟨?_, herr, ?_, ?_⟩
  · intro hmissing hid
    obtain ⟨vc, hvc, h0⟩ := decodeMap_without_count quote _ { ID := [], Count := 0 } hmissing hid
    have hdec : UnmarshalMap quote result.Attributes = .ok vc := hvc
    simp only at h0
    rw [handler_eq, hstore]
    simp only [hdec, h0]
    rfl
  · rw [handler_eq, hstore]
    cases hd : UnmarshalMap quote result.Attributes with
    | error e => simp [hd, errorResponse]
    | ok vc => simp [hd, countResponse]
  · intro hex
    obtain ⟨err, he⟩ := decodeMap_count_string quote _ { ID := [], Count := 0 } hex
    exact ⟨err, herr err he⟩

/-- C3 amended, for a store returning the record with the key alone. -/
theorem missing_count_reports_zero_witness :
    (handler (UnmarshalMap plainQuote) "VisitorCount"
        (fun (_ : Unit) _ (s : Unit) =>
          (Except.ok { Attributes := some [("id", .S "visitor-count")] }, s))
        () { HTTPMethod := "POST", Path := "/", Headers := [], Body := "" } ()).1.1.StatusCode =
      200 :=
  congrArg (fun r => r.1.StatusCode)
    ((missing_count_reports_zero plainQuote "VisitorCount"
      (fun (_ : Unit) _ (s : Unit) =>
        (Except.ok { Attributes := some [("id", .S "visitor-count")] }, s))
      () { HTTPMethod := "POST", Path := "/", Headers := [], Body := "" } () ()
      { Attributes := some [("id", .S "visitor-count")] } rfl).1
      (by decide)
      (by
        intro kv hkv _
        simp only [Option.getD_some, List.mem_singleton] at hkv
        subst hkv
        exact Or.inl ⟨_, rfl⟩))

end CloudResume


